import Mathlib

/-!
Verification of the quest-guide enrichment pipeline of the `mosin_bay` bot.

The development shallowly embeds the pipeline's four components, translated
from the JavaScript sources:

* `src/services/cache.js`   — content-addressed cache over `node-cache`
  (MD5 fingerprint of quest id + serialized objectives, capacity 500,
  default TTL 7 days);
* `src/services/images.js`  — image collection: relevance scoring, wiki
  image filtering, and `findImageForObjective` selection;
* `src/services/gemini.js`  — guide generation: bounded retry around the
  model call and regex-driven response segmentation (`parseLLMResponse`);
* `src/commands/enhancedQuest.js` — the enrichment orchestrator
  (`handleEnhancedQuestCommand`'s cache / generate / fallback core).

Machine integers are modelled as `Nat` with explicit reduction mod `2^32`
where the source relies on 32-bit overflow (MD5).  JS strings are modelled
as Lean `String` / `List Char` (the sources only handle ASCII-relevant
text; `toLowerCase` is modelled by `Char.toLower`).  Fallible JS code
(thrown exceptions) is modelled with `Except`.  External collaborators
(Discord, the game-data API, the generative model, the HTTP fetch and DOM
parse) enter as explicit oracle parameters or pre-parsed input values,
exactly at the interface boundary the spec draws in its §6.
-/

deriving instance DecidableEq for Except

/-! ## Basic JS string semantics -/

/-- The characters matched by the JS regex class `\s`. -/
def jsWhitespaceChar (c : Char) : Bool :=
  c.toNat ∈ [9, 10, 11, 12, 13, 32, 160, 5760, 8232, 8233, 8239, 8287, 12288, 65279]
    || (8192 ≤ c.toNat && c.toNat ≤ 8202)

/-- Lower-case a character sequence (JS `toLowerCase`, ASCII range). -/
def lowerChars (s : List Char) : List Char := s.map Char.toLower

/-- JS `String.prototype.includes`: `containsSub hay needle` is true iff
`needle` occurs contiguously in `hay`. -/
def containsSub : List Char → List Char → Bool
  | hay, needle =>
    if needle.isPrefixOf hay then true
    else
      match hay with
      | [] => false
      | _ :: t => containsSub t needle

/-- JS `str.split(/\s+/)`: every maximal whitespace run is one delimiter,
so a leading (resp. trailing) run produces a leading (resp. trailing)
empty element, matching the JS behaviour.  Structural recursion on a
fuel argument (each step consumes at least one character, so fuel equal
to the input length suffices and the fuel-exhaustion arm is never
reached from `splitWs`). -/
def splitWsAux : Nat → List Char → List Char → List (List Char)
  | _, [], acc => [acc.reverse]
  | 0, _, acc => [acc.reverse]
  | fuel + 1, c :: rest, acc =>
    if jsWhitespaceChar c then
      acc.reverse :: splitWsAux fuel (rest.dropWhile jsWhitespaceChar) []
    else
      splitWsAux fuel rest (c :: acc)

/-- JS `str.split(/\s+/)`. -/
def splitWs (l : List Char) : List (List Char) := splitWsAux l.length l []

/-- JS `String.prototype.trim`: strip leading and trailing whitespace. -/
def jsTrim (l : List Char) : List Char :=
  ((l.dropWhile jsWhitespaceChar).reverse.dropWhile jsWhitespaceChar).reverse

/-- Case-insensitive prefix test, the way a case-insensitive JS regex
matches a literal (ASCII case folding). -/
def lowerPrefixOf : List Char → List Char → Bool
  | [], _ => true
  | _ :: _, [] => false
  | a :: as, b :: bs => (a.toLower == b.toLower) && lowerPrefixOf as bs

/-! ## MD5 (as used by node's `crypto.createHash('md5')`)

The cache fingerprint hashes the serialized objectives with MD5 and keeps
the first 8 hex characters (`src/services/cache.js`, `generateCacheKey`).
The implementation below is RFC 1321 over byte lists, with 32-bit words
as `Nat` reduced mod `2^32`. -/

def mask32 : Nat := 4294967295

def add32 (a b : Nat) : Nat := (a + b) % 4294967296

def not32 (x : Nat) : Nat := mask32 ^^^ x

def rotl32 (x s : Nat) : Nat :=
  ((x <<< s) ||| (x >>> (32 - s))) &&& mask32

def md5K : List Nat := [
  3614090360, 3905402710, 606105819, 3250441966,
  4118548399, 1200080426, 2821735955, 4249261313,
  1770035416, 2336552879, 4294925233, 2304563134,
  1804603682, 4254626195, 2792965006, 1236535329,
  4129170786, 3225465664, 643717713, 3921069994,
  3593408605, 38016083, 3634488961, 3889429448,
  568446438, 3275163606, 4107603335, 1163531501,
  2850285829, 4243563512, 1735328473, 2368359562,
  4294588738, 2272392833, 1839030562, 4259657740,
  2763975236, 1272893353, 4139469664, 3200236656,
  681279174, 3936430074, 3572445317, 76029189,
  3654602809, 3873151461, 530742520, 3299628645,
  4096336452, 1126891415, 2878612391, 4237533241,
  1700485571, 2399980690, 4293915773, 2240044497,
  1873313359, 4264355552, 2734768916, 1309151649,
  4149444226, 3174756917, 718787259, 3951481745
]

def md5S : List Nat := [
  7, 12, 17, 22, 7, 12, 17, 22,
  7, 12, 17, 22, 7, 12, 17, 22,
  5, 9, 14, 20, 5, 9, 14, 20,
  5, 9, 14, 20, 5, 9, 14, 20,
  4, 11, 16, 23, 4, 11, 16, 23,
  4, 11, 16, 23, 4, 11, 16, 23,
  6, 10, 15, 21, 6, 10, 15, 21,
  6, 10, 15, 21, 6, 10, 15, 21
]

/-- Little-endian byte decomposition of `n`, `count` bytes. -/
def leBytes (n count : Nat) : List Nat :=
  (List.range count).map (fun i => (n >>> (8 * i)) % 256)

/-- RFC 1321 padding: append `0x80`, zero bytes to 56 mod 64, then the
bit length as a 64-bit little-endian quantity. -/
def md5Pad (msg : List Nat) : List Nat :=
  let len := msg.length
  let zeros := (119 - len % 64) % 64
  msg ++ [128] ++ List.replicate zeros 0 ++ leBytes (len * 8) 8

/-- Split a byte list into 64-byte blocks (fuel-structural; every step
consumes at least one byte, so fuel equal to the length suffices). -/
def chunks64Aux : Nat → List Nat → List (List Nat)
  | _, [] => []
  | 0, _ => []
  | fuel + 1, l => l.take 64 :: chunks64Aux fuel (l.drop 64)

/-- Split a byte list into 64-byte blocks. -/
def chunks64 (l : List Nat) : List (List Nat) := chunks64Aux l.length l

/-- The sixteen little-endian 32-bit words of one 64-byte block. -/
def blockWords (b : List Nat) : List Nat :=
  (List.range 16).map (fun i =>
    b.getD (4 * i) 0 + 256 * b.getD (4 * i + 1) 0
      + 65536 * b.getD (4 * i + 2) 0 + 16777216 * b.getD (4 * i + 3) 0)

/-- One of the 64 MD5 rounds. -/
def md5Round (m : List Nat) (st : Nat × Nat × Nat × Nat) (i : Nat) :
    Nat × Nat × Nat × Nat :=
  let a := st.1
  let b := st.2.1
  let c := st.2.2.1
  let d := st.2.2.2
  let fg : Nat × Nat :=
    if i < 16 then ((b &&& c) ||| (not32 b &&& d), i)
    else if i < 32 then ((d &&& b) ||| (not32 d &&& c), (5 * i + 1) % 16)
    else if i < 48 then (b ^^^ c ^^^ d, (3 * i + 5) % 16)
    else (c ^^^ (b ||| not32 d), (7 * i) % 16)
  let t := (fg.1 + a + md5K.getD i 0 + m.getD fg.2 0) % 4294967296
  (d, add32 b (rotl32 t (md5S.getD i 0)), b, c)

/-- Process one 64-byte block. -/
def md5Block (st : Nat × Nat × Nat × Nat) (blk : List Nat) :
    Nat × Nat × Nat × Nat :=
  let m := blockWords blk
  let r := (List.range 64).foldl (md5Round m) st
  (add32 st.1 r.1, add32 st.2.1 r.2.1, add32 st.2.2.1 r.2.2.1,
    add32 st.2.2.2 r.2.2.2)

/-- MD5 digest of a byte list, as 16 bytes. -/
def md5Bytes (msg : List Nat) : List Nat :=
  let st := (chunks64 (md5Pad msg)).foldl md5Block
    (1732584193, 4023233417, 2562383102, 271733878)
  leBytes st.1 4 ++ leBytes st.2.1 4 ++ leBytes st.2.2.1 4 ++ leBytes st.2.2.2 4

/-- Lower-case hex digit. -/
def hexDigit (n : Nat) : Char :=
  if n < 10 then Char.ofNat (48 + n) else Char.ofNat (87 + n)

/-- Hex rendering of one byte (two digits). -/
def byteHex (b : Nat) : List Char := [hexDigit (b / 16), hexDigit (b % 16)]

/-- MD5 digest of a byte list as the usual 32-character hex string. -/
def md5Hex (msg : List Nat) : List Char :=
  (md5Bytes msg).foldr (fun b acc => byteHex b ++ acc) []

/-- UTF-8 encoding of one code point (node hashes strings as UTF-8). -/
def utf8Encode (c : Nat) : List Nat :=
  if c < 128 then [c]
  else if c < 2048 then [192 + c / 64, 128 + c % 64]
  else if c < 65536 then [224 + c / 4096, 128 + c / 64 % 64, 128 + c % 64]
  else [240 + c / 262144, 128 + c / 4096 % 64, 128 + c / 64 % 64, 128 + c % 64]

/-- The UTF-8 bytes of a string. -/
def strBytes (s : String) : List Nat :=
  s.data.foldr (fun c acc => utf8Encode c.toNat ++ acc) []


/-! ## Data model

A quest objective carries exactly the fields requested by the searchQuest
GraphQL query (`src/tarkovApi.js`): `id`, `description`, `optional`,
`type`.  `JSON.stringify` therefore serializes those four fields in that
order, which is what the cache fingerprint hashes. -/

structure Objective where
  id : String
  description : String
  optional : Bool
  type : String
deriving DecidableEq, Repr

structure MapInfo where
  name : String
  imageLink : Option String
deriving DecidableEq, Repr

/-- The part of a quest value the enrichment pipeline reads. -/
structure Quest where
  id : String
  name : String
  objectives : List Objective
  map : Option MapInfo
  wikiLink : Option String
deriving DecidableEq, Repr

/-- A structured guide as produced by `parseLLMResponse`
(`src/services/gemini.js`). -/
structure Guide where
  overview : String
  objectives : List String
  tips : String
  raw : String
deriving DecidableEq, Repr

/-! ## JSON serialization (JS `JSON.stringify`) of the objectives list -/

/-- JSON escaping of one character, as `JSON.stringify` performs it. -/
def jsonEscapeChar (c : Char) : List Char :=
  if c = '"' then ['\\', '"']
  else if c = '\\' then ['\\', '\\']
  else if c = '\n' then ['\\', 'n']
  else if c = '\r' then ['\\', 'r']
  else if c = '\t' then ['\\', 't']
  else if c.toNat = 8 then ['\\', 'b']
  else if c.toNat = 12 then ['\\', 'f']
  else if c.toNat < 32 then
    ['\\', 'u', '0', '0', hexDigit (c.toNat / 16), hexDigit (c.toNat % 16)]
  else [c]

/-- A JSON string literal. -/
def jsonStr (s : String) : String :=
  "\"" ++ String.mk (s.data.foldr (fun c acc => jsonEscapeChar c ++ acc) []) ++ "\""

/-- `JSON.stringify` of one objective object (key insertion order is the
GraphQL field order). -/
def serializeObjective (o : Objective) : String :=
  "\x7b\"id\":" ++ jsonStr o.id
    ++ ",\"description\":" ++ jsonStr o.description
    ++ ",\"optional\":" ++ (if o.optional then "true" else "false")
    ++ ",\"type\":" ++ jsonStr o.type ++ "\x7d"

/-- `JSON.stringify(objectives || [])`. -/
def serializeObjectives (objs : List Objective) : String :=
  "[" ++ String.intercalate "," (objs.map serializeObjective) ++ "]"

/-- The truncated digest used inside the cache key: first 8 hex characters
of the MD5 of the serialized objectives. -/
def objectivesHash (objs : List Objective) : String :=
  String.mk ((md5Hex (strBytes (serializeObjectives objs))).take 8)

/-- `generateCacheKey` from `src/services/cache.js`. -/
def generateCacheKey (questId : String) (objectives : List Objective) : String :=
  "quest:" ++ questId ++ ":" ++ objectivesHash objectives

/-! ## Image data model (`src/services/images.js` shapes) -/

/-- An API-sourced image entry as pushed by `extractAPIImages`. -/
structure ApiImage where
  url : String
  description : String
  objectiveIndex : Nat
  type : String
deriving DecidableEq, Repr

/-- One `objectiveImages` group: `\x7b objectiveIndex, images \x7d`. -/
structure ObjectiveImageGroup where
  objectiveIndex : Nat
  images : List ApiImage
deriving DecidableEq, Repr

/-- A scraped wiki image as pushed by `scrapeWikiImages`.  The stored
`relevanceScore` is the computed score with `|| 0.1` applied. -/
structure WikiImage where
  url : String
  alt : String
  title : String
  description : String
  relevanceScore : ℚ
deriving DecidableEq, Repr

/-- The combined image structure returned by `getQuestImages`. -/
structure QuestImages where
  mapImage : Option ApiImage
  objectiveImages : List ObjectiveImageGroup
  itemImages : List ApiImage
  wikiImages : List WikiImage
  totalImages : Nat
deriving DecidableEq, Repr

/-- The value cached by the orchestrator: `\x7b llmGuide, images \x7d`. -/
structure EnrichedData where
  llmGuide : Guide
  images : QuestImages
deriving DecidableEq, Repr

/-! ## The node-cache store (`questCache` in `src/services/cache.js`)

`new NodeCache(\x7b stdTTL: 604800, checkperiod: 3600, maxKeys: 500,
useClones: false \x7d)`.  We model the store as an insertion-ordered
association list plus the hit/miss statistics node-cache keeps.  Time is
an explicit millisecond clock.  node-cache checks expiry on `get`
(deleting the expired entry) and throws `ECACHEFULL` from `set` when the
key count is at `maxKeys`. -/

structure CacheEntry where
  value : EnrichedData
  expiresAt : Nat
deriving DecidableEq, Repr

structure QuestCache where
  entries : List (String × CacheEntry)
  hits : Nat
  misses : Nat
deriving DecidableEq, Repr

def emptyQuestCache : QuestCache := ⟨[], 0, 0⟩

def ncMaxKeys : Nat := 500

/-- node-cache `get` at time `now` (ms): expired entries are deleted and
counted as misses; otherwise hits return the stored value. -/
def ncGet (c : QuestCache) (now : Nat) (key : String) :
    Option EnrichedData × QuestCache :=
  match c.entries.find? (fun p => p.1 == key) with
  | none => (none, { c with misses := c.misses + 1 })
  | some (_, e) =>
    if e.expiresAt ≠ 0 ∧ e.expiresAt < now then
      (none, { c with entries := c.entries.filter (fun p => p.1 != key),
                      misses := c.misses + 1 })
    else
      (some e.value, { c with hits := c.hits + 1 })

/-- node-cache `set` at time `now` with a TTL in seconds: throws
`ECACHEFULL` when the store already holds `maxKeys` keys, otherwise
inserts or overwrites and returns the updated store. -/
def ncSet (c : QuestCache) (now : Nat) (key : String) (v : EnrichedData)
    (ttlSec : Nat) : Except String QuestCache :=
  if ncMaxKeys ≤ c.entries.length then .error "ECACHEFULL"
  else
    let e : CacheEntry := ⟨v, now + ttlSec * 1000⟩
    if c.entries.any (fun p => p.1 == key) then
      .ok { c with entries :=
        c.entries.map (fun p => if p.1 == key then (key, e) else p) }
    else
      .ok { c with entries := c.entries ++ [(key, e)] }

/-- `getCachedQuestGuide` from `src/services/cache.js`.  The source wraps
the lookup in try/catch returning `null` on error; the modelled lookup is
total, so the catch arm is unreachable here. -/
def getCachedQuestGuide (questId : String) (objectives : List Objective)
    (now : Nat) (c : QuestCache) : Option EnrichedData × QuestCache :=
  ncGet c now (generateCacheKey questId objectives)

/-- `setCachedQuestGuide` from `src/services/cache.js`: JS `ttl ||
defaultTTL` (so an absent or zero ttl falls back to 7 days), with the
`ECACHEFULL` throw swallowed into a `false` result and an unchanged
store. -/
def setCachedQuestGuide (questId : String) (objectives : List Objective)
    (data : EnrichedData) (ttl : Option Nat) (now : Nat) (c : QuestCache) :
    Bool × QuestCache :=
  let effTtl := match ttl with
    | none => 604800
    | some t => if t = 0 then 604800 else t
  match ncSet c now (generateCacheKey questId objectives) data effTtl with
  | .ok c' => (true, c')
  | .error _ => (false, c)

/-! ## Relevance scoring and image selection (`src/services/images.js`) -/

/-- `calculateRelevance(context, keywords)`: 2 points for a whole-word
match (membership in the `\s+`-split token list), 1 point for a substring
match, normalized by `2 × keywords.length`; `0` for an empty context,
an empty keyword list, or no match. -/
def calculateRelevance (context : String) (keywords : List String) : ℚ :=
  if context = "" ∨ keywords = [] then 0
  else
    let contextLower := lowerChars context.data
    let tokens := splitWs contextLower
    let sm := keywords.foldl (fun (acc : Nat × Nat) kw =>
      if containsSub contextLower (lowerChars kw.data) then
        (acc.1 + (if tokens.contains (lowerChars kw.data) then 2 else 1),
          acc.2 + 1)
      else acc) (0, 0)
    if 0 < sm.2 then mkRat sm.1 (2 * keywords.length) else 0

/-- The per-keyword points of the spec's scoring formula (§4.2 of the
spec): 2 for a whole-word occurrence, 1 for a substring-only occurrence,
0 otherwise, all case-insensitively. -/
def keywordPoints (context : String) (kw : String) : Nat :=
  let cl := lowerChars context.data
  let k := lowerChars kw.data
  if containsSub cl k then (if (splitWs cl).contains k then 2 else 1) else 0

/-- `normalizeImageUrl(url, baseUrl)` for absolute and protocol-relative
URLs, exactly as in the source; for the relative branch the source calls
the WHATWG `URL` library on the base's origin.  Modelled from the spec:
"Normalize relative/protocol-relative URLs to absolute using the
reference page's origin" — the origin of an http(s) base is
scheme + host, and a relative path is appended to it; a base that is not
an http(s) URL makes the `URL` constructor throw, which the source
catches into `null`. -/
def originOf (base : String) : Option String :=
  if "https://".data.isPrefixOf base.data then
    let host := (base.data.drop 8).takeWhile (fun c => c ≠ '/')
    if host = [] then none else some ("https://" ++ String.mk host)
  else if "http://".data.isPrefixOf base.data then
    let host := (base.data.drop 7).takeWhile (fun c => c ≠ '/')
    if host = [] then none else some ("http://" ++ String.mk host)
  else none

def normalizeImageUrl (url : String) (baseUrl : String) : Option String :=
  if url = "" then none
  else if "http://".data.isPrefixOf url.data
      || "https://".data.isPrefixOf url.data then some url
  else if "//".data.isPrefixOf url.data then some ("https:" ++ url)
  else
    match originOf baseUrl with
    | none => none
    | some origin =>
      if "/".data.isPrefixOf url.data then some (origin ++ url)
      else some (origin ++ "/" ++ url)

/-- The keyword list `scrapeWikiImages` builds from the quest: name, map
name if any, and every objective-description word longer than 4
characters, with JS `filter(Boolean)` dropping empty strings. -/
def questKeywords (q : Quest) : List String :=
  (([q.name] ++ (match q.map with | some m => [m.name] | none => []))
      ++ (q.objectives.foldr (fun o acc =>
            ((splitWs o.description.data).filter
              (fun w => 4 < w.length)).map String.mk ++ acc) [])).filter
    (fun s => s ≠ "")

/-- A parsed `<img>` element together with its surrounding context text,
the boundary at which the external fetch + cheerio parse hands data to
`scrapeWikiImages` (spec §6, document fetch + parse). `width`/`height`
are the declared attributes after `parseInt` (`none` for a missing or
non-numeric attribute, which JS compares as `NaN < 50 = false`). -/
structure ImgElem where
  src : Option String
  alt : Option String
  title : Option String
  width : Option Nat
  height : Option Nat
  contextText : String
deriving DecidableEq, Repr

/-- The context string scored for one image: the enclosing block's text,
falling back to the alt text and then the title
(`$(elem).closest('p, div, td, li, table').text() || alt || title`). -/
def wikiImageContext (el : ImgElem) : String :=
  if el.contextText ≠ "" then el.contextText
  else if el.alt.getD "" ≠ "" then el.alt.getD ""
  else el.title.getD ""

/-- The body of the `$('img').each` loop in `scrapeWikiImages`: size and
icon filters, context selection, relevance scoring, the permissive
`relevanceScore > 0.1 || isContentImage` acceptance, URL normalization,
and the `relevanceScore || 0.1` stored score.  An element whose `src`
attribute is absent makes the source dereference `undefined` (a thrown
`TypeError`), modelled as the `Except` error arm. -/
def processWikiImage (keywords : List String) (wikiLink : String)
    (el : ImgElem) : Except String (Option WikiImage) :=
  if (match el.width, el.height with
      | some w, some h => w < 50 || h < 50
      | _, _ => false) then .ok none
  else if containsSub (lowerChars (el.alt.getD "").data)
      ['i', 'c', 'o', 'n'] then .ok none
  else
    match el.src with
    | none => .error "TypeError"
    | some src =>
      if containsSub (lowerChars src.data) ['/', 'i', 'c', 'o', 'n']
          || containsSub (lowerChars src.data) ['_', 'i', 'c', 'o', 'n'] then
        .ok none
      else
        if (decide (mkRat 1 10 <
              calculateRelevance (wikiImageContext el) keywords)
            || (decide (src ≠ "")
                && !containsSub src.data "advertisements".data
                && !containsSub src.data "/thumb/".data))
            && decide (src ≠ "") then
          match normalizeImageUrl src wikiLink with
          | some u =>
            if !containsSub u.data "data:image".data then
              .ok (some { url := u, alt := el.alt.getD "",
                          title := el.title.getD "",
                          description :=
                            String.mk ((wikiImageContext el).data.take 100),
                          relevanceScore :=
                            if calculateRelevance (wikiImageContext el)
                                keywords = 0 then mkRat 1 10
                            else
                              calculateRelevance (wikiImageContext el)
                                keywords })
            else .ok none
          | none => .ok none
        else .ok none

/-- Sequential traversal of a list by a throwing step, stopping at the
first raised error — the effect of `forEach` with a body that may throw.
Identical to `List.mapM` in the `Except` monad. -/
def exceptMapList {α β ε : Type} (f : α → Except ε β) : List α → Except ε (List β)
  | [] => .ok []
  | a :: t =>
    match f a with
    | .error e => .error e
    | .ok b =>
      match exceptMapList f t with
      | .error e => .error e
      | .ok bs => .ok (b :: bs)

/-- Stable insertion into a descending-by-score list: the inserted
element goes after the elements already present with an equal score,
which is exactly the order a stable sort leaves equal elements in. -/
def insertByScoreDesc (a : WikiImage) : List WikiImage → List WikiImage
  | [] => [a]
  | b :: t =>
    if b.relevanceScore < a.relevanceScore then a :: b :: t
    else b :: insertByScoreDesc a t

/-- Stable sort by stored relevance, descending: the unique stable
ordering that JS `images.sort((a, b) => b.relevanceScore -
a.relevanceScore)` (stable per ES2019) produces. -/
def sortByScoreDesc (l : List WikiImage) : List WikiImage :=
  l.foldl (fun acc x => insertByScoreDesc x acc) []

/-- The pure core of `scrapeWikiImages`, from the parsed image elements
of the fetched page onward: process every element, sort the kept ones by
stored relevance descending, and keep the top 10.  A `TypeError` thrown
inside the loop is caught by the function's try/catch, which returns the
empty list. -/
def scrapeWikiImagesPure (q : Quest) (wikiLink : String)
    (elems : List ImgElem) : List WikiImage :=
  let keywords := questKeywords q
  match exceptMapList (processWikiImage keywords wikiLink) elems with
  | .error _ => []
  | .ok opts =>
    let images := opts.foldr (fun o acc =>
      match o with | some i => i :: acc | none => acc) []
    (sortByScoreDesc images).take 10

/-- The wiki branch of `findImageForObjective`: the first wiki image
whose description-plus-alt relevance against the objective's own keyword
list exceeds 0.5, then the first wiki image, then nothing. -/
def findWikiFallback (objective : Objective) (allImages : QuestImages) :
    Option String :=
  if 0 < allImages.wikiImages.length then
    let keywords := ((splitWs objective.description.data).filter
      (fun w => 4 < w.length)).map String.mk
    match allImages.wikiImages.find? (fun img =>
        decide (mkRat 1 2 <
          calculateRelevance (img.description ++ " " ++ img.alt) keywords)) with
    | some matched => some matched.url
    | none => allImages.wikiImages.head?.map (fun i => i.url)
  else none

/-- `findImageForObjective(objective, objectiveIndex, allImages)` from
`src/services/images.js`. -/
def findImageForObjective (objective : Objective) (objectiveIndex : Nat)
    (allImages : QuestImages) : Option String :=
  match allImages.objectiveImages.find?
      (fun g => g.objectiveIndex == objectiveIndex) with
  | some g =>
    if 0 < g.images.length then
      match g.images.find? (fun img => img.type == "image") with
      | some fullImage => some fullImage.url
      | none => g.images.head?.map (fun i => i.url)
    else
      findWikiFallback objective allImages
  | none => findWikiFallback objective allImages

/-! ## Response segmentation (`parseLLMResponse`, `src/services/gemini.js`)

The source segments the model's free text with a handful of specific
regexes.  Each one is of the shape

  anchor-literal  gap?  lazy-capture  (lookahead stop | end)

and is modelled here by dedicated matching functions that reproduce the
JS engine's leftmost-first scan, the greedy backtracking of the
`[:\s]*\n` gap, and the shortest-capture (`[\s\S]*?`) behaviour in front
of the lookahead alternatives. -/

/-- First index `i` (`0 ≤ i ≤ l.length`) whose suffix `l.drop i`
satisfies `p`. -/
def firstIdxWhere (p : List Char → Bool) : List Char → Option Nat
  | [] => if p [] then some 0 else none
  | c :: t => if p (c :: t) then some 0 else (firstIdxWhere p t).map (· + 1)

/-- Does one of the lookahead alternatives (or, when `allowEnd`, the end
anchor `$`) match at this suffix?  Case-insensitive like the source's
`i` flag. -/
def stopHere (stops : List (List Char)) (allowEnd : Bool)
    (suf : List Char) : Bool :=
  stops.any (fun s => lowerPrefixOf s suf) || (allowEnd && suf.isEmpty)

/-- The lazy capture `([\s\S]*?)(?=stop|…)`: the shortest prefix whose
cut point satisfies the lookahead. -/
def lazyCaptureTo (stops : List (List Char)) (allowEnd : Bool)
    (l : List Char) : Option (List Char) :=
  (firstIdxWhere (stopHere stops allowEnd) l).map (fun i => l.take i)

/-- The character class `[:\s]` used by the section-heading gaps. -/
def colonWs (c : Char) : Bool := c == ':' || jsWhitespaceChar c

/-- The newline positions inside the maximal `[:\s]` run at the head of
`l`, in descending order: the greedy `[:\s]*` followed by `\n`
backtracks through exactly these cut points, longest first. -/
def nlPositionsDesc (l : List Char) : List Nat :=
  let run := l.takeWhile colonWs
  ((List.range run.length).filter (fun i => run.getD i ' ' == '\n')).reverse

/-- Match `[:\s]*\n` greedily after an anchor and then take the lazy
capture; backtrack to earlier newlines if no stop is reachable. -/
def tryGapAndCapture (stops : List (List Char)) (allowEnd : Bool)
    (rest : List Char) : Option (List Char) :=
  (nlPositionsDesc rest).findSome?
    (fun m => lazyCaptureTo stops allowEnd (rest.drop (m + 1)))

/-- Scan the text's suffixes left to right and return the first success:
the JS engine's leftmost-match rule. -/
def firstSomeSuffix {α : Type} (f : List Char → Option α) :
    List Char → Option α
  | [] => f []
  | c :: t =>
    match f (c :: t) with
    | some r => some r
    | none => firstSomeSuffix f t

/-- A whole section-extraction regex of the shape
`/(?:anchor₁|anchor₂)[:\s]*\n([\s\S]*?)(?=stop…|$)/i`, returning the
capture group. -/
def matchAnchoredSection (anchors stops : List (List Char))
    (allowEnd : Bool) (text : List Char) : Option (List Char) :=
  firstSomeSuffix (fun suf =>
    anchors.findSome? (fun a =>
      if lowerPrefixOf a suf then
        tryGapAndCapture stops allowEnd (suf.drop a.length)
      else none)) text

/-- Anchors of the first per-objective pattern for objective number `n`:
`Objective n` or `n.`. -/
def objAnchors (n : Nat) : List (List Char) :=
  [("Objective " ++ toString n).data, (toString n ++ ".").data]

/-- Lookahead stops of the first per-objective pattern:
the next objective heading, `\n##`, or `Priority Tips` (plus `$`). -/
def objStops (n : Nat) : List (List Char) :=
  [("\nObjective " ++ toString (n + 1)).data,
   ("\n" ++ toString (n + 1) ++ ".").data,
   ['\n', '#', '#'],
   "Priority Tips".data]

/-- The first per-objective pattern
`/(?:Objective n|n\.)([\s\S]*?)(?=\n(?:Objective n+1|n+1\.)|\n##|Priority Tips|$)/i`,
returning (matched anchor text, capture). -/
def matchObjHeading (n : Nat) (text : List Char) :
    Option (List Char × List Char) :=
  firstSomeSuffix (fun suf =>
    (objAnchors n).findSome? (fun a =>
      if lowerPrefixOf a suf then
        (lazyCaptureTo (objStops n) true (suf.drop a.length)).map
          (fun cap => (suf.take a.length, cap))
      else none)) text

/-- The second per-objective pattern: the objective description's first
30 characters followed by `[\s\S]{0,500}` (greedy), returning the whole
match `match[0]`. -/
def matchDescAnchor (d30 : List Char) (text : List Char) :
    Option (List Char) :=
  firstSomeSuffix (fun suf =>
    if lowerPrefixOf d30 suf then some (suf.take (d30.length + 500))
    else none) text

/-- Characters that are special in a JS regex pattern. -/
def regexMetaChar (c : Char) : Bool :=
  c ∈ ['\\', '^', '$', '.', '|', '?', '*', '+', '(', ')', '[', ']',
       Char.ofNat 123, Char.ofNat 125]

/-- Parenthesis scan of a pattern prefix, with JS character-class and
escape rules: a backslash escapes the next character; between `[` and
`]` parentheses are literals; outside a class, `)` at depth zero or a
`(` still open at the end makes the pattern invalid.  The tail the
source appends (`[\s\S]{0,500}`) contains no parenthesis, so it can
close an open character class but never repair a parenthesis imbalance:
the scan's verdict on the prefix decides the whole pattern. -/
def parenScan : List Char → Nat → Bool → Bool
  | [], depth, _ => decide (0 < depth)
  | '\\' :: rest, depth, inClass =>
    match rest with
    | [] => decide (0 < depth)
    | _ :: rest2 => parenScan rest2 depth inClass
  | c :: rest, depth, inClass =>
    if inClass then parenScan rest depth (c != ']')
    else if c = '[' then parenScan rest depth true
    else if c = '(' then parenScan rest (depth + 1) false
    else if c = ')' then
      if depth = 0 then true else parenScan rest (depth - 1) false
    else parenScan rest depth false

/-- An unmatched `)` or an unclosed `(` outside a character class: the
interpolated pattern is then an invalid regular expression and
`new RegExp` throws, whatever follows the prefix. -/
def parenInvalid (l : List Char) : Bool := parenScan l 0 false

/-- The source interpolates the raw 30-character description prefix into
`new RegExp(prefix + "[\s\S]{0,500}", 'i')`.  Three cases:
* a parenthesis-unbalanced prefix (`parenInvalid`) is an invalid
  pattern: the constructor's `SyntaxError` is the error arm (other
  invalid shapes — say a leading quantifier — also throw in the source
  but are not modelled as throwing, so the error arm under-approximates
  the throw);
* a metacharacter-free prefix denotes a literal search, which is what
  the compiled pattern then matches;
* any other prefix compiles to a valid non-literal pattern whose
  matching is not modelled: the slot computation treats it as matching
  nothing, and no theorem below depends on this arm's value. -/
def compileDescPattern (desc30 : List Char) :
    Except String (Option (List Char)) :=
  if parenInvalid desc30 then .error "SyntaxError"
  else if desc30.any regexMetaChar then .ok none
  else .ok (some desc30)

/-- Fill one objective slot: build both patterns (the second may throw),
try the heading pattern then the description-anchored pattern, trim the
capture (`match[1]`) when it is non-empty and the whole match otherwise,
and leave the slot empty when neither pattern matches. -/
def objectiveSlot (text : List Char) (desc : String) (idx : Nat) :
    Except String (List Char) :=
  match compileDescPattern (desc.data.take 30) with
  | .error e => .error e
  | .ok pat =>
    match matchObjHeading (idx + 1) text with
    | some mc => .ok (if !mc.2.isEmpty then jsTrim mc.2 else jsTrim mc.1)
    | none =>
      match pat with
      | some d30 =>
        match matchDescAnchor d30 text with
        | some m0 => .ok (jsTrim m0)
        | none => .ok []
      | none => .ok []

/-- The per-objective matching loop of `parseLLMResponse`; the first
thrown `SyntaxError` aborts the loop. -/
def parseObjectiveSlots (text : List Char) (objs : List Objective) :
    Except String (List (List Char)) :=
  exceptMapList (fun p => objectiveSlot text p.2.description p.1) objs.enum

/-- An ASCII digit. -/
def digitChar (c : Char) : Bool := 48 ≤ c.toNat && c.toNat ≤ 57

/-- The lookahead `(?=\d+\.)`: one or more digits followed by a dot. -/
def digitsDotAhead (l : List Char) : Bool :=
  let ds := l.takeWhile digitChar
  !ds.isEmpty && (l.drop ds.length).head? == some '.'

/-- JS `guideText.split(/\n\n+|\n(?=\d+\.)/)`: a blank line (two or more
newlines, consumed greedily) or a newline in front of a numbered item
splits the guide text. -/
def jsSplitGuideAux : Nat → List Char → List Char → List (List Char)
  | _, [], acc => [acc.reverse]
  | 0, _, acc => [acc.reverse]
  | fuel + 1, c :: rest, acc =>
    if c = '\n' then
      if rest.head? = some '\n' then
        acc.reverse :: jsSplitGuideAux fuel (rest.dropWhile (fun x => x = '\n')) []
      else if digitsDotAhead rest then
        acc.reverse :: jsSplitGuideAux fuel rest []
      else jsSplitGuideAux fuel rest (c :: acc)
    else jsSplitGuideAux fuel rest (c :: acc)

def jsSplitGuide (l : List Char) : List (List Char) :=
  jsSplitGuideAux l.length l []

/-- The guide-block regex
`/Step-by-Step Guide[:\s]*\n([\s\S]*?)(?=\n##|Priority Tips|$)/i`. -/
def matchGuideBlock (text : List Char) : Option (List Char) :=
  matchAnchoredSection ["Step-by-Step Guide".data]
    [['\n', '#', '#'], "Priority Tips".data] true text

/-- The document-level fallback: when every slot is empty, split the
guide block and assign chunk `i` to slot `i`; a missing or empty chunk
receives the whole (trimmed) guide block (`parts[idx] || guideText`).
When the guide block is not found the slots stay as they are. -/
def fallbackFill (text : List Char) (slots : List (List Char)) :
    List (List Char) :=
  match matchGuideBlock text with
  | none => slots
  | some cap =>
    let guideText := jsTrim cap
    let parts := jsSplitGuide guideText
    (List.range slots.length).map (fun idx =>
      match parts.getD idx [] with
      | [] => guideText
      | p => p)

def overviewAnchors : List (List Char) :=
  ["Brief Overview".data, "Overview".data]

def overviewStops : List (List Char) :=
  [['\n', '#', '#'], "\n**Step-by-Step".data, "\nObjective".data]

def tipsAnchors : List (List Char) := ["Priority Tips".data, "Tips".data]

/-- `parseLLMResponse(text, quest)`: overview and tips extraction, the
per-objective matching chain, the all-slots-empty fallback, and the
catch-all that assigns the raw text to every slot if the loop throws.
The `raw` field always retains the full original output. -/
def parseLLMResponse (text : String) (q : Quest) : Guide :=
  let t := text.data
  let overview :=
    ((matchAnchoredSection overviewAnchors overviewStops false t).map
      jsTrim).getD []
  let tips :=
    ((matchAnchoredSection tipsAnchors [] true t).map jsTrim).getD []
  let objectives :=
    match parseObjectiveSlots t q.objectives with
    | .error _ => q.objectives.map (fun _ => t)
    | .ok slots0 =>
      if slots0.all (fun s => s.isEmpty) then fallbackFill t slots0
      else slots0
  { overview := String.mk overview,
    objectives := objectives.map String.mk,
    tips := String.mk tips,
    raw := text }

/-! ## Guide generation with bounded retry (`generateQuestGuide`) -/

/-- What one model invocation yields: a response value (whose `text`
field may be absent — the source reads `result.text || ''`) or a thrown
transient failure. -/
structure ModelResult where
  text : Option String
deriving DecidableEq, Repr

/-- The `while (!result && attempts < maxAttempts)` retry loop: each
iteration increments `attempts`, invokes the model (the argument is the
attempt number), and on a thrown failure sleeps 1000 ms before a
remaining retry; a success leaves the loop at the next condition check.
`remaining` counts the attempts still allowed (`maxAttempts - attempts`).
Returns (result, number of invocations, recorded sleeps in ms). -/
def retryLoop (model : Nat → Except String ModelResult) :
    Nat → Nat → List Nat → Option ModelResult × Nat × List Nat
  | 0, attempts, sleeps => (none, attempts, sleeps)
  | remaining + 1, attempts, sleeps =>
    match model (attempts + 1) with
    | .ok r => (some r, attempts + 1, sleeps)
    | .error _ =>
      retryLoop model remaining (attempts + 1)
        (if 0 < remaining then sleeps ++ [1000] else sleeps)

/-- `generateQuestGuide(quest)` from `src/services/gemini.js`:
`initialized` captures the client / `initializeGemini()` check (a
missing API key returns the failure signal without calling the model);
otherwise at most 2 attempts, and an absent result after the loop throws
internally, which the function's own catch converts to the `null`
failure signal.  The prompt building is presentation of quest data for
the external model and does not influence control flow.  Returns
(guide or failure signal, model invocations, sleeps). -/
def generateQuestGuide (initialized : Bool)
    (model : Nat → Except String ModelResult) (q : Quest) :
    Option Guide × Nat × List Nat :=
  if !initialized then (none, 0, [])
  else
    let r := retryLoop model 2 0 []
    match r.1 with
    | none => (none, r.2.1, r.2.2)
    | some res => (some (parseLLMResponse (res.text.getD "") q), r.2.1, r.2.2)

/-! ## The enrichment orchestrator
(`handleEnhancedQuestCommand`, `src/commands/enhancedQuest.js`)

The command's decision core, with the Discord rendering and the quest
search stripped to their data flow: the quest value stands for
`quests[0]`, and the Guide Generator and Image Collector enter as
oracles whose invocations are counted (the source runs them under
`Promise.all`; both complete before the join point, so the sequential
model observes the same values and counts). -/

structure EnrichWorld where
  cache : QuestCache
  now : Nat
  genCalls : Nat
  imgCalls : Nat
deriving DecidableEq, Repr

/-- What the caller renders: the enriched result or the baseline
(non-enriched) quest view, the fallback marker. -/
inductive EnhancedResponse where
  | enhanced (data : EnrichedData)
  | baseline
deriving DecidableEq, Repr

/-- The cache / generate / fallback core of `handleEnhancedQuestCommand`:
cache hit returns the cached data unchanged; on a miss both oracles run;
a `null` guide yields the baseline fallback with no cache write;
otherwise the combined result is cached (best effort) and returned. -/
def handleEnhancedQuestCore (gen : Quest → Option Guide)
    (img : Quest → QuestImages) (q : Quest) (w : EnrichWorld) :
    EnhancedResponse × EnrichWorld :=
  let lookup := getCachedQuestGuide q.id q.objectives w.now w.cache
  match lookup.1 with
  | some data => (.enhanced data, { w with cache := lookup.2 })
  | none =>
    let llmGuide := gen q
    let images := img q
    let w1 : EnrichWorld :=
      { w with cache := lookup.2, genCalls := w.genCalls + 1,
               imgCalls := w.imgCalls + 1 }
    match llmGuide with
    | none => (.baseline, w1)
    | some g =>
      let res : EnrichedData := ⟨g, images⟩
      let st := setCachedQuestGuide q.id q.objectives res none w.now w1.cache
      (.enhanced res, { w1 with cache := st.2 })

/-- Two consecutive invocations of the command for the same quest, the
second at clock time `now2`: returns (first response, second response,
final world). -/
def enrichTwice (gen : Quest → Option Guide) (img : Quest → QuestImages)
    (q : Quest) (w : EnrichWorld) (now2 : Nat) :
    EnhancedResponse × EnhancedResponse × EnrichWorld :=
  let r1 := handleEnhancedQuestCore gen img q w
  let r2 := handleEnhancedQuestCore gen img q { r1.2 with now := now2 }
  (r1.1, r2.1, r2.2)

/-! ## Concrete instances used by the closed theorems below -/

def emptyGuide : Guide := ⟨"", [], "", ""⟩

def emptyImages : QuestImages := ⟨none, [], [], [], 0⟩

def fillerData : EnrichedData := ⟨emptyGuide, emptyImages⟩

/-- A store already holding `maxKeys` entries. -/
def fullCache : QuestCache :=
  ⟨(List.range ncMaxKeys).map (fun i => (toString i, ⟨fillerData, 0⟩)), 0, 0⟩

/-- An objective whose long words are `alpha` and `bravo`. -/
def cexObjC5 : Objective := ⟨"o1", "alpha bravo", false, "visit"⟩

/-- Relevance against `[alpha, bravo]`: `alpha` whole word, `bravo`
substring only — score 3/4. -/
def cexImgA : WikiImage :=
  ⟨"https://wiki.example/a.png", "", "", "alpha xbravoz", mkRat 1 2⟩

/-- Relevance against `[alpha, bravo]`: both whole words — score 1. -/
def cexImgB : WikiImage :=
  ⟨"https://wiki.example/b.png", "", "", "alpha bravo", mkRat 1 2⟩

def cexImagesC5 : QuestImages := ⟨none, [], [], [cexImgA, cexImgB], 2⟩

def wObjC5 : Objective := ⟨"o1", "mark the relay", false, "mark"⟩

def wIconC5 : ApiImage := ⟨"https://api.example/icon.png", "Marker", 0, "icon"⟩

/-- A scraped image with stored relevance 0.9. -/
def wWikiC5 : WikiImage :=
  ⟨"https://wiki.example/w.png", "", "", "relay photo", mkRat 9 10⟩

def wImagesC5 : QuestImages := ⟨none, [⟨0, [wIconC5]⟩], [], [wWikiC5], 2⟩

def questC7 : Quest :=
  ⟨"q7", "Quest Seven",
    [⟨"o1", "Secure the eastern compound before dusk", false, "visit"⟩,
     ⟨"o2", "Recover the hidden ledger from the vault", false, "findItem"⟩,
     ⟨"o3", "Deliver the ledger to the contact", false, "giveItem"⟩],
    none, none⟩

/-- A response with no per-objective markers and two blank-line-separated
guide chunks (fewer than the three objectives). -/
def textC7two : String :=
  "Intro words\n## Step-by-Step Guide\nHead east to the compound area and wait for dusk\n\nPry open the vault and take everything inside"

/-- A response with no per-objective markers and three blank-line-separated
guide chunks for the three objectives. -/
def textC7three : String :=
  "Intro words\n## Step-by-Step Guide\nHead east to the compound area and wait for dusk\n\nPry open the vault and take everything inside\n\nWalk back to the contact and finish"

/-- Six keywords come out of this quest (name plus five long words), so a
single substring match scores 1/12 < 0.1. -/
def questC10 : Quest :=
  ⟨"q10", "Operation",
    [⟨"o1", "station checkpoint harbor lookout signal", false, "visit"⟩],
    none, none⟩

/-- Matches only `station`, as a substring of `stationhouse`. -/
def elemC10 : ImgElem :=
  ⟨some "https://wiki.example/photo.png", some "", none, none, none,
    "the stationhouse"⟩

/-- Matches no keyword at all: kept through the content-image branch with
stored score 0.1. -/
def elemC10zero : ImgElem :=
  ⟨some "https://wiki.example/other.png", some "", none, none, none,
    "unrelated words"⟩

/-! # Theorems

One theorem per claim of the specification, preceded by shared helper
lemmas.  Claim theorems carry the claim id in their doc comment. -/

/-- Helper: strings with equal character lists are equal. -/
theorem string_ext_of_data {s t : String} (h : s.data = t.data) : s = t := by
  cases s
  cases t
  exact congrArg String.mk h

set_option maxRecDepth 100000 in
/-- C3, counterexample: the claim that any two objective lists differing
in an objective description get different fingerprints is false — the
key keeps only 32 bits of the MD5 digest, and these two single-objective
lists, identical except for their descriptions, collide on it
(`quest:q1:815d0ab4` both). -/
theorem generateCacheKey_truncation_collision :
    (⟨"obj1", "aamrrc", false, "visit"⟩ : Objective).description ≠
        (⟨"obj1", "abhcnc", false, "visit"⟩ : Objective).description ∧
      generateCacheKey "q1" [⟨"obj1", "aamrrc", false, "visit"⟩] =
        generateCacheKey "q1" [⟨"obj1", "abhcnc", false, "visit"⟩] := by
  constructor
  · decide
  · decide

/-- C3 (amended): the fingerprint is deterministic — recomputing it on
structurally equal inputs yields the same key — and for a fixed quest
identifier two objective lists receive different fingerprints whenever
the truncated (8 hex character) MD5 digests of their serializations
differ; the truncation admits collisions, so digest inequality rather
than description inequality is what separates keys. -/
theorem generateCacheKey_deterministic_digest_sensitive
    (questId : String) (o1 o2 : List Objective)
    (h : objectivesHash o1 ≠ objectivesHash o2) :
    generateCacheKey questId o1 = generateCacheKey questId o1 ∧
      generateCacheKey questId o1 ≠ generateCacheKey questId o2 := by
  refine ⟨rfl, fun he => h ?_⟩
  have hd := congrArg String.data he
  rw [generateCacheKey, generateCacheKey, String.data_append,
    String.data_append] at hd
  exact string_ext_of_data (List.append_cancel_left hd)

set_option maxRecDepth 100000 in
/-- C3 witness: the amended sensitivity applied to two lists whose
truncated digests differ. -/
theorem generateCacheKey_digest_sensitive_witness :
    generateCacheKey "q1" [⟨"obj1", "aamrrc", false, "visit"⟩] ≠
      generateCacheKey "q1" [⟨"obj2", "other", true, "kill"⟩] :=
  (generateCacheKey_deterministic_digest_sensitive "q1" _ _ (by decide)).2

/-- C9: the cache write never throws to its caller — when the underlying
store write fails the error is swallowed and reported as `false`, and
whenever `false` is reported the store is unchanged, so the orchestrator
can proceed without caching. -/
theorem setCachedQuestGuide_swallows_errors
    (questId : String) (objectives : List Objective) (data : EnrichedData)
    (ttl : Option Nat) (now : Nat) (c : QuestCache) :
    ((setCachedQuestGuide questId objectives data ttl now c).1 = false →
      (setCachedQuestGuide questId objectives data ttl now c).2 = c) ∧
    (ncMaxKeys ≤ c.entries.length →
      setCachedQuestGuide questId objectives data ttl now c = (false, c)) := by
  unfold setCachedQuestGuide ncSet
  by_cases hc : ncMaxKeys ≤ c.entries.length
  · simp [hc]
  · constructor
    · intro hfalse
      simp only [if_neg hc] at hfalse ⊢
      split at hfalse <;> simp_all
    · intro hcontra
      exact absurd hcontra hc

/-- C9 witness: writing to a store already holding `maxKeys` keys is the
swallowed `ECACHEFULL` error: the call reports failure and leaves the
store untouched. -/
theorem setCachedQuestGuide_swallows_errors_witness :
    setCachedQuestGuide "q" [] fillerData none 0 fullCache =
      (false, fullCache) :=
  (setCachedQuestGuide_swallows_errors "q" [] fillerData none 0 fullCache).2
    (by simp [fullCache, ncMaxKeys])

/-- Helper: the relevance score is never negative. -/
theorem calculateRelevance_nonneg (context : String) (kws : List String) :
    0 ≤ calculateRelevance context kws := by
  unfold calculateRelevance
  split
  · exact le_refl 0
  · dsimp only
    split
    · exact Rat.mkRat_nonneg (by positivity) _
    · exact le_refl 0

/-- Helper: the score/matched accumulator of `calculateRelevance` computes
the sum of the per-keyword points and the count of matched keywords. -/
theorem relevance_foldl_spec (cl : List Char) (toks : List (List Char)) :
    ∀ (kws : List String) (a b : Nat),
      kws.foldl (fun (acc : Nat × Nat) kw =>
          if containsSub cl (lowerChars kw.data) then
            (acc.1 + (if toks.contains (lowerChars kw.data) then 2 else 1),
              acc.2 + 1)
          else acc) (a, b) =
        (a + (kws.map (fun kw =>
            if containsSub cl (lowerChars kw.data) then
              (if toks.contains (lowerChars kw.data) then 2 else 1)
            else 0)).sum,
          b + kws.countP (fun kw => containsSub cl (lowerChars kw.data)))
  | [], a, b => by simp
  | kw :: t, a, b => by
    by_cases h : containsSub cl (lowerChars kw.data) = true
    · simp only [List.foldl_cons, h, if_true]
      rw [relevance_foldl_spec cl toks t]
      simp only [List.map_cons, List.sum_cons, List.countP_cons, h, if_true,
        Prod.mk.injEq]
      constructor <;> omega
    · simp only [List.foldl_cons, h, if_false, Bool.false_eq_true]
      rw [relevance_foldl_spec cl toks t]
      simp only [List.map_cons, List.sum_cons, List.countP_cons, h, if_false,
        Bool.false_eq_true, Prod.mk.injEq]
      constructor <;> omega

/-- Helper: a non-empty needle never occurs in the empty hay. -/
theorem containsSub_nil (needle : List Char) (h : needle ≠ []) :
    containsSub [] needle = false := by
  cases needle with
  | nil => exact absurd rfl h
  | cons c cs => simp [containsSub, List.isPrefixOf]

/-- Helper: every keyword contributes at most 2 points. -/
theorem keywordPoints_le_two (context : String) (kw : String) :
    keywordPoints context kw ≤ 2 := by
  unfold keywordPoints
  dsimp only
  split
  · split <;> omega
  · omega

/-- C6: the relevance score equals the sum over matched keywords of 2
points for a whole-word match and 1 point for a substring match, divided
by 2 times the keyword count; the score lies in [0, 1] and is 0 when no
keyword occurs in the context (case-insensitively); and the context
`Find the relay station near the checkpoint` scores strictly higher
against `[relay, checkpoint]` than `Go north` does. -/
theorem calculateRelevance_formula_spec (context : String) (kws : List String)
    (hne : kws ≠ []) (hkw : ∀ k ∈ kws, k ≠ "") :
    calculateRelevance context kws =
        ((kws.map (keywordPoints context)).sum : ℚ) / (2 * kws.length) ∧
      0 ≤ calculateRelevance context kws ∧
      calculateRelevance context kws ≤ 1 ∧
      ((∀ k ∈ kws,
          containsSub (lowerChars context.data) (lowerChars k.data) = false) →
        calculateRelevance context kws = 0) ∧
      calculateRelevance "Go north" ["relay", "checkpoint"] <
        calculateRelevance "Find the relay station near the checkpoint"
          ["relay", "checkpoint"] := by
  have hpoints : (fun kw =>
      if containsSub (lowerChars context.data) (lowerChars kw.data) then
        (if (splitWs (lowerChars context.data)).contains
            (lowerChars kw.data) then 2 else 1)
      else (0 : Nat)) = keywordPoints context := by
    funext kw
    simp [keywordPoints]
  have hfor : calculateRelevance context kws =
      ((kws.map (keywordPoints context)).sum : ℚ) / (2 * kws.length) := by
    unfold calculateRelevance
    by_cases hc : context = ""
    · have hz : ∀ k ∈ kws, keywordPoints context k = 0 := by
        intro k hk
        have hkd : k.data ≠ [] := fun hd =>
          (hkw k hk) (string_ext_of_data (by rw [hd]))
        have hlow : lowerChars k.data ≠ [] := by
          simpa [lowerChars] using hkd
        unfold keywordPoints
        dsimp only
        rw [hc]
        rw [show lowerChars ("" : String).data = [] from rfl,
          containsSub_nil _ hlow]
        simp
      have hsum0 : (kws.map (keywordPoints context)).sum = 0 := by
        apply List.sum_eq_zero
        intro x hx
        obtain ⟨k, hk, rfl⟩ := List.mem_map.mp hx
        exact hz k hk
      rw [if_pos (Or.inl hc), hsum0]
      simp
    · rw [if_neg (not_or.mpr ⟨hc, hne⟩)]
      dsimp only
      rw [relevance_foldl_spec]
      simp only [Nat.zero_add, hpoints]
      by_cases hm : 0 < kws.countP
          (fun kw => containsSub (lowerChars context.data) (lowerChars kw.data))
      · rw [if_pos hm, Rat.mkRat_eq_div]
        simp only [Int.cast_natCast, Nat.cast_mul, Nat.cast_ofNat]
      · rw [if_neg hm]
        have hall : ∀ k ∈ kws,
            containsSub (lowerChars context.data) (lowerChars k.data) = false := by
          intro k hk
          by_contra hcon
          exact hm (List.countP_pos_iff.mpr ⟨k, hk, by simpa using hcon⟩)
        have hsum0 : (kws.map (keywordPoints context)).sum = 0 := by
          apply List.sum_eq_zero
          intro x hx
          obtain ⟨k, hk, rfl⟩ := List.mem_map.mp hx
          unfold keywordPoints
          dsimp only
          rw [hall k hk]
          simp
        rw [hsum0]
        simp
  have hub : calculateRelevance context kws ≤ 1 := by
    rw [hfor]
    have hlen : 0 < kws.length := List.length_pos.mpr hne
    have hdenom : (0 : ℚ) < 2 * kws.length := by
      have : (0 : ℚ) < (kws.length : ℚ) := by exact_mod_cast hlen
      linarith
    rw [div_le_one hdenom]
    have hs : (kws.map (keywordPoints context)).sum ≤ 2 * kws.length := by
      have hb := List.sum_le_card_nsmul (kws.map (keywordPoints context)) 2 ?_
      · simpa [List.length_map, smul_eq_mul, Nat.mul_comm] using hb
      · intro x hx
        obtain ⟨k, hk, rfl⟩ := List.mem_map.mp hx
        exact keywordPoints_le_two context k
    exact_mod_cast hs
  have hzero : (∀ k ∈ kws,
      containsSub (lowerChars context.data) (lowerChars k.data) = false) →
      calculateRelevance context kws = 0 := by
    intro hall
    rw [hfor]
    have hsum0 : (kws.map (keywordPoints context)).sum = 0 := by
      apply List.sum_eq_zero
      intro x hx
      obtain ⟨k, hk, rfl⟩ := List.mem_map.mp hx
      unfold keywordPoints
      dsimp only
      rw [hall k hk]
      simp
    rw [hsum0]
    simp
  exact ⟨hfor, calculateRelevance_nonneg context kws, hub, hzero, by decide⟩

/-- C6 witness: the formula instantiated at the spec's concrete keyword
list and context. -/
theorem calculateRelevance_formula_spec_witness :
    calculateRelevance "Find the relay station near the checkpoint"
        ["relay", "checkpoint"] =
      (((["relay", "checkpoint"].map
          (keywordPoints "Find the relay station near the checkpoint")).sum : ℚ) /
        (2 * (["relay", "checkpoint"] : List String).length)) :=
  (calculateRelevance_formula_spec
    "Find the relay station near the checkpoint" ["relay", "checkpoint"]
    (by decide) (by decide)).1

set_option maxRecDepth 4000 in
/-- C5, counterexample: the wiki branch takes the FIRST scraped image
whose relevance to the objective's keywords exceeds 0.5 (in stored
order), not the best-scoring one: image B scores 1 against the
objective's keywords while image A scores only 3/4, both exceed 0.5,
yet A's url (the earlier entry) is returned. -/
theorem findImageForObjective_first_not_best :
    calculateRelevance (cexImgB.description ++ " " ++ cexImgB.alt)
        ["alpha", "bravo"] = 1 ∧
      calculateRelevance (cexImgA.description ++ " " ++ cexImgA.alt)
        ["alpha", "bravo"] = mkRat 3 4 ∧
      mkRat 1 2 < mkRat 3 4 ∧ mkRat 3 4 < 1 ∧
      findImageForObjective cexObjC5 0 cexImagesC5 = some cexImgA.url ∧
      cexImgA.url ≠ cexImgB.url := by
  decide

/-- C5 (amended): the per-objective image match follows the preference
order: structural full image (`type = image`) for that objective index,
then the first structural image recorded for that index (an icon), then
the first scraped image in stored order whose context/alt relevance to
the objective's keyword set exceeds 0.5, then the first scraped image,
then none; structural sources always outrank scraped ones. -/
theorem findImageForObjective_preference_order (objective : Objective)
    (idx : Nat) (allImages : QuestImages) :
    (∀ g full, allImages.objectiveImages.find?
          (fun g => g.objectiveIndex == idx) = some g →
        g.images.find? (fun img => img.type == "image") = some full →
        findImageForObjective objective idx allImages = some full.url) ∧
      (∀ g, allImages.objectiveImages.find?
          (fun g => g.objectiveIndex == idx) = some g →
        g.images ≠ [] →
        g.images.find? (fun img => img.type == "image") = none →
        findImageForObjective objective idx allImages =
          g.images.head?.map (fun i => i.url)) ∧
      ((allImages.objectiveImages.find?
          (fun g => g.objectiveIndex == idx) = none ∨
        (∃ g, allImages.objectiveImages.find?
          (fun g => g.objectiveIndex == idx) = some g ∧ g.images = [])) →
        (∀ m, allImages.wikiImages.find? (fun img =>
            decide (mkRat 1 2 < calculateRelevance
              (img.description ++ " " ++ img.alt)
              (((splitWs objective.description.data).filter
                (fun w => 4 < w.length)).map String.mk))) = some m →
          findImageForObjective objective idx allImages = some m.url) ∧
        (allImages.wikiImages.find? (fun img =>
            decide (mkRat 1 2 < calculateRelevance
              (img.description ++ " " ++ img.alt)
              (((splitWs objective.description.data).filter
                (fun w => 4 < w.length)).map String.mk))) = none →
          findImageForObjective objective idx allImages =
            allImages.wikiImages.head?.map (fun i => i.url)) ∧
        (allImages.wikiImages = [] →
          findImageForObjective objective idx allImages = none)) := by
  have hwiki : ∀ hstruct : (allImages.objectiveImages.find?
      (fun g => g.objectiveIndex == idx) = none ∨
      (∃ g, allImages.objectiveImages.find?
        (fun g => g.objectiveIndex == idx) = some g ∧ g.images = [])),
      findImageForObjective objective idx allImages =
        findWikiFallback objective allImages := by
    intro hstruct
    rcases hstruct with hnone | ⟨g, hg, hempty⟩
    · simp only [findImageForObjective, hnone]
    · simp only [findImageForObjective, hg, hempty, List.length_nil,
        Nat.lt_irrefl, if_false]
  refine ⟨?_, ?_, ?_⟩
  · intro g full hg hfull
    have hne : g.images ≠ [] := by
      intro h
      rw [h] at hfull
      simp [List.find?] at hfull
    simp only [findImageForObjective, hg, hfull,
      if_pos (List.length_pos.mpr hne)]
  · intro g hg hne hfull
    simp only [findImageForObjective, hg, hfull,
      if_pos (List.length_pos.mpr hne)]
  · intro hstruct
    rw [hwiki hstruct]
    unfold findWikiFallback
    refine ⟨?_, ?_, ?_⟩
    · intro m hm
      have hne : allImages.wikiImages ≠ [] := by
        intro h
        rw [h] at hm
        simp [List.find?] at hm
      simp only [if_pos (List.length_pos.mpr hne), hm]
    · intro hnone
      by_cases hne : allImages.wikiImages = []
      · rw [if_neg (by simp [hne]), hne]
        rfl
      · simp only [if_pos (List.length_pos.mpr hne), hnone]
    · intro hempty
      rw [if_neg (by simp [hempty])]

set_option maxRecDepth 4000 in
/-- C5 witness: with a structural icon and a scraped image of stored
relevance 0.9 recorded for the same objective index, the structural
icon's URL is returned. -/
theorem findImageForObjective_preference_witness :
    findImageForObjective wObjC5 0 wImagesC5 =
      some "https://api.example/icon.png" := by
  have h := (findImageForObjective_preference_order wObjC5 0 wImagesC5).2.1
    ⟨0, [wIconC5]⟩ (by decide) (by decide) (by decide)
  simpa [wIconC5] using h

set_option maxRecDepth 4000 in
/-- C10, counterexample: a kept scraped image can carry a stored
relevance score strictly below 0.1 — with six quest keywords a single
substring match computes 1/12, which passes the permissive
content-image acceptance and is stored as is. -/
theorem scrapeWikiImages_stored_below_tenth :
    scrapeWikiImagesPure questC10 "https://wiki.example/page" [elemC10] =
        [⟨"https://wiki.example/photo.png", "", "", "the stationhouse",
          mkRat 1 12⟩] ∧
      mkRat 1 12 < mkRat 1 10 ∧ (0 : ℚ) < mkRat 1 12 := by
  decide

/-- Helper: membership in a successful `exceptMapList` run comes from a
successful application on some input element. -/
theorem exceptMapList_ok_mem {α β ε : Type} {f : α → Except ε β} :
    ∀ {l : List α} {ys : List β}, exceptMapList f l = .ok ys →
      ∀ y ∈ ys, ∃ x ∈ l, f x = .ok y
  | [], ys, h, y, hy => by
    simp only [exceptMapList, Except.ok.injEq] at h
    subst h
    simp at hy
  | a :: t, ys, h, y, hy => by
    simp only [exceptMapList] at h
    cases hfa : f a with
    | error e => rw [hfa] at h; exact absurd h (by simp)
    | ok b =>
      rw [hfa] at h
      cases hrec : exceptMapList f t with
      | error e => rw [hrec] at h; exact absurd h (by simp)
      | ok bs =>
        rw [hrec] at h
        simp only [Except.ok.injEq] at h
        subst h
        rcases List.mem_cons.mp hy with rfl | hmem
        · exact ⟨a, List.mem_cons_self a t, hfa⟩
        · obtain ⟨x, hx, hfx⟩ := exceptMapList_ok_mem hrec y hmem
          exact ⟨x, List.mem_cons_of_mem a hx, hfx⟩

/-- Helper: insertion introduces no new elements. -/
theorem mem_insertByScoreDesc {a x : WikiImage} :
    ∀ {l : List WikiImage}, a ∈ insertByScoreDesc x l → a = x ∨ a ∈ l
  | [], h => by
    simp only [insertByScoreDesc, List.mem_singleton] at h
    exact Or.inl h
  | b :: t, h => by
    simp only [insertByScoreDesc] at h
    split at h
    · rcases List.mem_cons.mp h with rfl | hmem
      · exact Or.inl rfl
      · exact Or.inr hmem
    · rcases List.mem_cons.mp h with rfl | hmem
      · exact Or.inr (List.mem_cons_self _ _)
      · rcases mem_insertByScoreDesc hmem with rfl | hmem2
        · exact Or.inl rfl
        · exact Or.inr (List.mem_cons_of_mem _ hmem2)

/-- Helper: the stable sort introduces no new elements. -/
theorem mem_sortByScoreDesc {a : WikiImage} {l : List WikiImage}
    (h : a ∈ sortByScoreDesc l) : a ∈ l := by
  suffices hgen : ∀ (l' : List WikiImage) (acc : List WikiImage),
      a ∈ l'.foldl (fun acc x => insertByScoreDesc x acc) acc →
      a ∈ acc ∨ a ∈ l' by
    rcases hgen l [] h with hacc | hl
    · exact absurd hacc (List.not_mem_nil a)
    · exact hl
  intro l'
  induction l' with
  | nil => intro acc hacc; exact Or.inl hacc
  | cons b t ih =>
    intro acc hacc
    rcases ih (insertByScoreDesc b acc) hacc with hin | hint
    · rcases mem_insertByScoreDesc hin with rfl | hmem
      · exact Or.inr (List.mem_cons_self _ _)
      · exact Or.inl hmem
    · exact Or.inr (List.mem_cons_of_mem _ hint)

/-- Helper: membership in the collected `some`s of a list of options. -/
theorem mem_collectSomes {i : WikiImage} :
    ∀ {opts : List (Option WikiImage)},
      i ∈ opts.foldr (fun o acc =>
        match o with | some x => x :: acc | none => acc) [] →
      some i ∈ opts
  | [], h => absurd h (List.not_mem_nil i)
  | none :: t, h => by
    simp only [List.foldr_cons] at h
    exact List.mem_cons_of_mem _ (mem_collectSomes h)
  | some x :: t, h => by
    simp only [List.foldr_cons] at h
    rcases List.mem_cons.mp h with rfl | hmem
    · exact List.mem_cons_self _ _
    · exact List.mem_cons_of_mem _ (mem_collectSomes hmem)

/-- Helper: a successfully kept image stores the computed relevance with
`|| 0.1` applied. -/
theorem processWikiImage_ok_some (keywords : List String) (link : String)
    (el : ImgElem) (w : WikiImage)
    (h : processWikiImage keywords link el = .ok (some w)) :
    w.relevanceScore =
      (if calculateRelevance (wikiImageContext el) keywords = 0 then mkRat 1 10
       else calculateRelevance (wikiImageContext el) keywords) := by
  unfold processWikiImage at h
  iterate 10 (all_goals (try split at h))
  all_goals simp at h
  all_goals subst h
  all_goals simp_all

/-- C10 (amended): every kept scraped image carries a strictly positive
stored relevance score — an image whose computed relevance is 0 but is
accepted through the content-image branch is recorded with score 0.1,
and any other kept image stores its computed positive score, which can
lie strictly below 0.1; so the stored score never equals 0 and can
differ from the computed relevance. -/
theorem scrapeWikiImages_stored_score_spec :
    (∀ (q : Quest) (wikiLink : String) (elems : List ImgElem),
      ∀ w ∈ scrapeWikiImagesPure q wikiLink elems, 0 < w.relevanceScore) ∧
    (∀ (keywords : List String) (link : String) (el : ImgElem)
        (w : WikiImage),
      processWikiImage keywords link el = .ok (some w) →
      w.relevanceScore =
        (if calculateRelevance (wikiImageContext el) keywords = 0 then
          mkRat 1 10
        else calculateRelevance (wikiImageContext el) keywords)) := by
  have hpos : ∀ (keywords : List String) (link : String) (el : ImgElem)
      (w : WikiImage), processWikiImage keywords link el = .ok (some w) →
      0 < w.relevanceScore := by
    intro keywords link el w h
    rw [processWikiImage_ok_some keywords link el w h]
    split
    · decide
    · rename_i hne
      exact lt_of_le_of_ne
        (calculateRelevance_nonneg (wikiImageContext el) keywords)
        (Ne.symm hne)
  constructor
  · intro q wikiLink elems w hw
    simp only [scrapeWikiImagesPure] at hw
    cases hml : exceptMapList
        (processWikiImage (questKeywords q) wikiLink) elems with
    | error e =>
      rw [hml] at hw
      exact absurd hw (List.not_mem_nil w)
    | ok opts =>
      rw [hml] at hw
      have hw2 : w ∈ sortByScoreDesc (opts.foldr (fun o acc =>
          match o with | some x => x :: acc | none => acc) []) :=
        List.take_subset 10 _ hw
      have hw4 := mem_collectSomes (mem_sortByScoreDesc hw2)
      obtain ⟨el, _, hfe⟩ := exceptMapList_ok_mem hml (some w) hw4
      exact hpos _ _ _ _ hfe
  · exact fun keywords link el w h =>
      processWikiImage_ok_some keywords link el w h

set_option maxRecDepth 4000 in
/-- C10 witness: an image matching no keyword, kept through the
content-image branch, is stored with score 0.1 (and the membership form
of the amended claim holds on it). -/
theorem scrapeWikiImages_stored_score_witness :
    (0 : ℚ) < (⟨"https://wiki.example/other.png", "", "", "unrelated words",
        mkRat 1 10⟩ : WikiImage).relevanceScore :=
  scrapeWikiImages_stored_score_spec.1 questC10 "https://wiki.example/page"
    [elemC10zero] _ (by decide)

/-- C4: the Guide Generator invokes the model at most 2 times; a first
successful attempt short-circuits further attempts (1 invocation, no
delay); an always-failing model is invoked exactly 2 times with the
single 1-second delay recorded between the attempts, and the generator
returns the failure signal — the embedding is total, so nothing is
raised past the boundary. -/
theorem generateQuestGuide_retry_spec
    (model : Nat → Except String ModelResult) (q : Quest) :
    (∀ init, (generateQuestGuide init model q).2.1 ≤ 2) ∧
      (∀ r, model 1 = .ok r →
        generateQuestGuide true model q =
          (some (parseLLMResponse (r.text.getD "") q), 1, [])) ∧
      (∀ e1 e2, model 1 = .error e1 → model 2 = .error e2 →
        generateQuestGuide true model q = (none, 2, [1000])) := by
  refine ⟨?_, ?_, ?_⟩
  · intro init
    cases init with
    | false => simp [generateQuestGuide]
    | true =>
      cases h1 : model 1 with
      | ok r => simp [generateQuestGuide, retryLoop, h1]
      | error e =>
        cases h2 : model 2 with
        | ok r => simp [generateQuestGuide, retryLoop, h1, h2]
        | error e2 => simp [generateQuestGuide, retryLoop, h1, h2]
  · intro r h1
    simp [generateQuestGuide, retryLoop, h1]
  · intro e1 e2 h1 h2
    simp [generateQuestGuide, retryLoop, h1, h2]

/-- C4 witness: a stub that always fails is invoked exactly twice, with
one 1000 ms delay, and yields the failure signal. -/
theorem generateQuestGuide_retry_witness :
    generateQuestGuide true (fun _ => .error "boom")
        ⟨"q", "Sample", [], none, none⟩ = (none, 2, [1000]) :=
  (generateQuestGuide_retry_spec (fun _ => .error "boom")
    ⟨"q", "Sample", [], none, none⟩).2.2 "boom" "boom" rfl rfl

/-- Helper: a miss leaves no entry under the key and cannot grow the
store (the lookup either keeps the entries or deletes an expired one). -/
theorem getCached_none_spec (questId : String) (objectives : List Objective)
    (now : Nat) (c : QuestCache)
    (h : (getCachedQuestGuide questId objectives now c).1 = none) :
    (∀ p ∈ (getCachedQuestGuide questId objectives now c).2.entries,
      ¬ p.1 = generateCacheKey questId objectives) ∧
    (getCachedQuestGuide questId objectives now c).2.entries.length ≤
      c.entries.length := by
  cases hf : c.entries.find?
      (fun p => p.1 == generateCacheKey questId objectives) with
  | none =>
    simp only [getCachedQuestGuide, ncGet, hf] at h ⊢
    refine ⟨?_, le_refl _⟩
    intro p hp hkey
    have := List.find?_eq_none.mp hf p hp
    simp [hkey] at this
  | some pe =>
    simp only [getCachedQuestGuide, ncGet, hf] at h ⊢
    split at h
    · rename_i hexp
      rw [if_pos hexp]
      constructor
      · intro p hp hkey
        have := List.of_mem_filter hp
        simp [hkey] at this
      · exact List.length_filter_le _ _
    · simp at h

/-- Helper: appending a fresh entry makes it findable when no existing
entry carries the key. -/
theorem find?_append_fresh (key : String) (e : CacheEntry) :
    ∀ (l : List (String × CacheEntry)),
      (∀ p ∈ l, ¬ p.1 = key) →
      (l ++ [(key, e)]).find? (fun p => p.1 == key) = some (key, e)
  | [], _ => by simp
  | p :: t, hall => by
    have hp : ¬ p.1 = key := hall p (List.mem_cons_self p t)
    simp only [List.cons_append, List.find?_cons,
      show (p.1 == key) = false from by simpa using hp]
    exact find?_append_fresh key e t
      (fun q hq => hall q (List.mem_cons_of_mem p hq))

/-- C2: on a cache miss where the Guide Generator returns the failure
signal, the orchestrator reports the baseline fallback and performs no
cache write: the cache after the call is exactly the lookup's cache and
holds no entry for the quest's fingerprint. -/
theorem enrichment_generator_failure_spec (gen : Quest → Option Guide)
    (img : Quest → QuestImages) (q : Quest) (w : EnrichWorld)
    (hmiss : (getCachedQuestGuide q.id q.objectives w.now w.cache).1 = none)
    (hgen : gen q = none) :
    (handleEnhancedQuestCore gen img q w).1 = .baseline ∧
      (handleEnhancedQuestCore gen img q w).2.cache =
        (getCachedQuestGuide q.id q.objectives w.now w.cache).2 ∧
      ∀ p ∈ (handleEnhancedQuestCore gen img q w).2.cache.entries,
        ¬ p.1 = generateCacheKey q.id q.objectives := by
  have hns := getCached_none_spec q.id q.objectives w.now w.cache hmiss
  have hcache : (handleEnhancedQuestCore gen img q w).2.cache =
      (getCachedQuestGuide q.id q.objectives w.now w.cache).2 := by
    simp [handleEnhancedQuestCore, hmiss, hgen]
  refine ⟨?_, hcache, ?_⟩
  · simp [handleEnhancedQuestCore, hmiss, hgen]
  · intro p hp
    rw [hcache] at hp
    exact hns.1 p hp

/-- C2 witness: a failing generator on an empty cache yields the
baseline fallback. -/
theorem enrichment_generator_failure_witness :
    (handleEnhancedQuestCore (fun _ => none) (fun _ => emptyImages)
        ⟨"q", "Q", [], none, none⟩ ⟨emptyQuestCache, 1000, 0, 0⟩).1 =
      EnhancedResponse.baseline :=
  (enrichment_generator_failure_spec (fun _ => none) (fun _ => emptyImages)
    ⟨"q", "Q", [], none, none⟩ ⟨emptyQuestCache, 1000, 0, 0⟩
    (by decide) rfl).1

/-- Helper: reading back a freshly appended, unexpired entry hits. -/
theorem ncGet_after_fresh_insert (key : String) (e : CacheEntry)
    (c1 : QuestCache) (now2 : Nat)
    (hall : ∀ p ∈ c1.entries, ¬ p.1 = key)
    (hexp : ¬(e.expiresAt ≠ 0 ∧ e.expiresAt < now2)) :
    (ncGet { c1 with entries := c1.entries ++ [(key, e)] } now2 key).1 =
      some e.value := by
  simp only [ncGet, find?_append_fresh key e c1.entries hall]
  rw [if_neg hexp]

/-- C1: a cache hit returns the cached result unchanged with no
generation work (neither oracle invoked); and starting from a state
without the quest's fingerprint (and below capacity), two consecutive
calls with the unmodified quest invoke the Guide Generator and the
Image Collector exactly once — the second call, within the 7-day TTL,
is served entirely from the cache and returns the same result. -/
theorem enrichment_cache_hit_spec (gen : Quest → Option Guide)
    (img : Quest → QuestImages) (q : Quest) (w : EnrichWorld) :
    (∀ data,
      (getCachedQuestGuide q.id q.objectives w.now w.cache).1 = some data →
      (handleEnhancedQuestCore gen img q w).1 = .enhanced data ∧
        (handleEnhancedQuestCore gen img q w).2.genCalls = w.genCalls ∧
        (handleEnhancedQuestCore gen img q w).2.imgCalls = w.imgCalls) ∧
      (∀ g now2,
        (getCachedQuestGuide q.id q.objectives w.now w.cache).1 = none →
        gen q = some g → w.cache.entries.length < ncMaxKeys →
        now2 ≤ w.now + 604800000 →
        (enrichTwice gen img q w now2).1 = .enhanced ⟨g, img q⟩ ∧
          (enrichTwice gen img q w now2).2.1 =
            (enrichTwice gen img q w now2).1 ∧
          (enrichTwice gen img q w now2).2.2.genCalls = w.genCalls + 1 ∧
          (enrichTwice gen img q w now2).2.2.imgCalls = w.imgCalls + 1) := by
  constructor
  · intro data hdata
    refine ⟨?_, ?_, ?_⟩ <;> simp [handleEnhancedQuestCore, hdata]
  · intro g now2 hmiss hgen hcap hfresh
    have hns := getCached_none_spec q.id q.objectives w.now w.cache hmiss
    have hlen :
        (getCachedQuestGuide q.id q.objectives w.now w.cache).2.entries.length
          < ncMaxKeys := lt_of_le_of_lt hns.2 hcap
    -- the written entry
    have hset : setCachedQuestGuide q.id q.objectives ⟨g, img q⟩ none w.now
        (getCachedQuestGuide q.id q.objectives w.now w.cache).2 =
        (true, { (getCachedQuestGuide q.id q.objectives w.now w.cache).2 with
          entries := (getCachedQuestGuide q.id q.objectives w.now w.cache).2.entries
            ++ [(generateCacheKey q.id q.objectives,
                ⟨⟨g, img q⟩, w.now + 604800 * 1000⟩)] }) := by
      have hany : (getCachedQuestGuide q.id q.objectives w.now w.cache).2.entries.any
          (fun p => p.1 == generateCacheKey q.id q.objectives) = false := by
        rw [List.any_eq_false]
        intro p hp
        simpa using hns.1 p hp
      have hnotle : ¬ (ncMaxKeys ≤
          (getCachedQuestGuide q.id q.objectives w.now w.cache).2.entries.length) :=
        not_le.mpr hlen
      simp [setCachedQuestGuide, ncSet, hany, hnotle]
    -- the first call
    have hcall1 : handleEnhancedQuestCore gen img q w =
        (EnhancedResponse.enhanced ⟨g, img q⟩,
          { cache := { (getCachedQuestGuide q.id q.objectives w.now w.cache).2 with
              entries := (getCachedQuestGuide q.id q.objectives w.now w.cache).2.entries
                ++ [(generateCacheKey q.id q.objectives,
                    (⟨⟨g, img q⟩, w.now + 604800 * 1000⟩ : CacheEntry))] },
            now := w.now, genCalls := w.genCalls + 1,
            imgCalls := w.imgCalls + 1 }) := by
      simp only [handleEnhancedQuestCore, hmiss, hgen, hset]
    -- the entry is found and unexpired on the second lookup
    have hlookup2 : (getCachedQuestGuide q.id q.objectives now2
        { (getCachedQuestGuide q.id q.objectives w.now w.cache).2 with
          entries := (getCachedQuestGuide q.id q.objectives w.now w.cache).2.entries
            ++ [(generateCacheKey q.id q.objectives,
                (⟨⟨g, img q⟩, w.now + 604800 * 1000⟩ : CacheEntry))] }).1 =
        some ⟨g, img q⟩ := by
      exact ncGet_after_fresh_insert (generateCacheKey q.id q.objectives)
        ⟨⟨g, img q⟩, w.now + 604800 * 1000⟩
        (getCachedQuestGuide q.id q.objectives w.now w.cache).2 now2 hns.1
        (by
          show ¬(w.now + 604800 * 1000 ≠ 0 ∧ w.now + 604800 * 1000 < now2)
          omega)
    unfold enrichTwice
    rw [hcall1]
    refine ⟨rfl, ?_, ?_, ?_⟩ <;>
      simp [handleEnhancedQuestCore, hlookup2]

/-- C1 witness: from an empty cache with a succeeding generator, two
calls for the unmodified quest invoke each oracle exactly once and the
second response equals the first. -/
theorem enrichment_cache_hit_witness :
    (enrichTwice (fun _ => some emptyGuide) (fun _ => emptyImages)
          ⟨"q", "Q", [], none, none⟩ ⟨emptyQuestCache, 1000, 0, 0⟩ 1000).2.1 =
        (enrichTwice (fun _ => some emptyGuide) (fun _ => emptyImages)
          ⟨"q", "Q", [], none, none⟩ ⟨emptyQuestCache, 1000, 0, 0⟩ 1000).1 ∧
      (enrichTwice (fun _ => some emptyGuide) (fun _ => emptyImages)
          ⟨"q", "Q", [], none, none⟩
          ⟨emptyQuestCache, 1000, 0, 0⟩ 1000).2.2.genCalls = 0 + 1 ∧
      (enrichTwice (fun _ => some emptyGuide) (fun _ => emptyImages)
          ⟨"q", "Q", [], none, none⟩
          ⟨emptyQuestCache, 1000, 0, 0⟩ 1000).2.2.imgCalls = 0 + 1 :=
  have h := (enrichment_cache_hit_spec (fun _ => some emptyGuide)
      (fun _ => emptyImages) ⟨"q", "Q", [], none, none⟩
      ⟨emptyQuestCache, 1000, 0, 0⟩).2 emptyGuide 1000
      (by decide) rfl (by decide) (by decide)
  ⟨h.2.1, h.2.2.1, h.2.2.2⟩

/-- Helper: a successful traversal preserves length. -/
theorem exceptMapList_ok_length {α β ε : Type} {f : α → Except ε β} :
    ∀ {l : List α} {ys : List β}, exceptMapList f l = .ok ys →
      ys.length = l.length
  | [], ys, h => by
    simp only [exceptMapList, Except.ok.injEq] at h
    subst h
    rfl
  | a :: t, ys, h => by
    simp only [exceptMapList] at h
    cases hfa : f a with
    | error e => rw [hfa] at h; exact absurd h (by simp)
    | ok b =>
      rw [hfa] at h
      cases hrec : exceptMapList f t with
      | error e => rw [hrec] at h; exact absurd h (by simp)
      | ok bs =>
        rw [hrec] at h
        simp only [Except.ok.injEq] at h
        subst h
        simp [exceptMapList_ok_length hrec]

/-- Helper: an unbalanced-parenthesis description prefix makes the slot
computation throw. -/
theorem objectiveSlot_error_of_paren (text : List Char) (desc : String)
    (idx : Nat) (h : parenInvalid (desc.data.take 30) = true) :
    objectiveSlot text desc idx = .error "SyntaxError" := by
  unfold objectiveSlot compileDescPattern
  rw [if_pos h]

/-- Helper: with a parenthesis-balanced prefix the slot computation
succeeds. -/
theorem objectiveSlot_ok_of_valid (text : List Char) (desc : String)
    (idx : Nat) (h : parenInvalid (desc.data.take 30) = false) :
    ∃ v, objectiveSlot text desc idx = .ok v := by
  by_cases hm : (desc.data.take 30).any regexMetaChar = true
  · simp only [objectiveSlot, compileDescPattern, h, hm, Bool.false_eq_true,
      if_false, if_true]
    split
    · exact ⟨_, rfl⟩
    · exact ⟨_, rfl⟩
  · simp only [objectiveSlot, compileDescPattern, h, hm, Bool.false_eq_true,
      if_false]
    split
    · exact ⟨_, rfl⟩
    · split
      · exact ⟨_, rfl⟩
      · exact ⟨_, rfl⟩

/-- Helper: the slot traversal throws whenever some objective's prefix
is parenthesis-unbalanced. -/
theorem slots_error_of_paren (text : List Char) :
    ∀ (objs : List Objective) (n : Nat),
      (∃ o ∈ objs, parenInvalid (o.description.data.take 30) = true) →
      ∀ ys, exceptMapList (fun p => objectiveSlot text p.2.description p.1)
        (objs.enumFrom n) ≠ .ok ys
  | [], n, hex, ys => by
    rcases hex with ⟨o, ho, _⟩
    exact absurd ho (List.not_mem_nil o)
  | a :: t, n, hex, ys => by
    intro h
    rw [List.enumFrom_cons] at h
    simp only [exceptMapList] at h
    by_cases hm : parenInvalid (a.description.data.take 30) = true
    · rw [objectiveSlot_error_of_paren text a.description n hm] at h
      simp at h
    · rcases hex with ⟨o, ho, homet⟩
      rcases List.mem_cons.mp ho with rfl | hot
      · exact hm homet
      · obtain ⟨v, hv⟩ := objectiveSlot_ok_of_valid text a.description n
          (by simpa using hm)
        rw [hv] at h
        cases hrec : exceptMapList
            (fun p => objectiveSlot text p.2.description p.1)
            (t.enumFrom (n + 1)) with
        | error e => rw [hrec] at h; simp at h
        | ok bs =>
          exact slots_error_of_paren text t (n + 1) ⟨o, hot, homet⟩ bs hrec

/-- C8: for every model response and quest, the parsed Guide has exactly
one text slot per quest objective, its `raw` field is the full original
output regardless of segmentation outcome, and in the ultimate fallback
— the per-objective loop throwing on an objective whose description
prefix is an invalid interpolated pattern (parenthesis-unbalanced) —
every slot is assigned the full raw response text. -/
theorem parseLLMResponse_shape_spec (text : String) (q : Quest) :
    (parseLLMResponse text q).objectives.length = q.objectives.length ∧
      (parseLLMResponse text q).raw = text ∧
      ((∃ o ∈ q.objectives,
          parenInvalid (o.description.data.take 30) = true) →
        (parseLLMResponse text q).objectives =
          q.objectives.map (fun _ => text)) := by
  refine ⟨?_, rfl, ?_⟩
  · simp only [parseLLMResponse]
    cases hps : parseObjectiveSlots text.data q.objectives with
    | error e => simp [hps]
    | ok slots0 =>
      have hl0 : slots0.length = q.objectives.length := by
        have := exceptMapList_ok_length hps
        simpa [List.enum_length] using this
      simp only [hps]
      split
      · simp only [fallbackFill]
        split
        · simp [hl0]
        · simp [hl0]
      · simp [hl0]
  · intro hex
    cases hps : parseObjectiveSlots text.data q.objectives with
    | error e =>
      simp [parseLLMResponse, hps, List.map_map, Function.comp]
    | ok slots0 =>
      exact absurd hps
        (slots_error_of_paren text.data q.objectives 0 hex slots0)

set_option maxRecDepth 8000 in
/-- C8 witness: a quest whose objective description starts with an
unmatched close parenthesis — an invalid interpolated pattern, so the
constructor throws — gets the raw response in every slot. -/
theorem parseLLMResponse_shape_witness :
    (parseLLMResponse "Some response text"
        ⟨"q", "Q", [⟨"o1", ") Mark the first spot", true, "mark"⟩,
          ⟨"o2", "Leave the area", false, "visit"⟩], none, none⟩).objectives =
      ["Some response text", "Some response text"] := by
  have h := (parseLLMResponse_shape_spec "Some response text"
      ⟨"q", "Q", [⟨"o1", ") Mark the first spot", true, "mark"⟩,
        ⟨"o2", "Leave the area", false, "visit"⟩], none, none⟩).2.2
    ⟨⟨"o1", ") Mark the first spot", true, "mark"⟩,
      List.mem_cons_self _ _, by decide⟩
  simpa using h

set_option maxRecDepth 8000 in
/-- C7, counterexample: with fewer chunks than objectives the remaining
slots are NOT given the final chunk nor left empty — with two
blank-line-separated chunks and three objectives, the third slot
receives the entire guide block text. -/
theorem segmentation_fallback_counterexample :
    (parseLLMResponse textC7two questC7).objectives.getD 2 "" =
        "Head east to the compound area and wait for dusk\n\nPry open the vault and take everything inside" ∧
      ("Head east to the compound area and wait for dusk\n\nPry open the vault and take everything inside" : String) ≠
        "Pry open the vault and take everything inside" ∧
      ("Head east to the compound area and wait for dusk\n\nPry open the vault and take everything inside" : String) ≠
        "" := by
  decide

/-- C7 (amended): when every per-objective slot is empty after the
matching chain and the step-by-step guide block is found, the block is
split on blank-line or numbered-item boundaries and slot `i` receives
chunk `i`; a missing chunk — fewer chunks than objectives — or an empty
chunk receives the entire trimmed guide block instead; in particular
with at least as many non-empty chunks as objectives the assignment is
exactly index-aligned. -/
theorem segmentation_fallback_spec (text : String) (q : Quest)
    (hall : parseObjectiveSlots text.data q.objectives =
      .ok (q.objectives.map (fun _ => [])))
    (cap : List Char) (hcap : matchGuideBlock text.data = some cap) :
    (parseLLMResponse text q).objectives =
        (List.range q.objectives.length).map (fun idx =>
          String.mk (match (jsSplitGuide (jsTrim cap)).getD idx [] with
            | [] => jsTrim cap
            | p => p)) ∧
      (q.objectives.length ≤ (jsSplitGuide (jsTrim cap)).length →
        (∀ p ∈ jsSplitGuide (jsTrim cap), p ≠ []) →
        (parseLLMResponse text q).objectives =
          ((jsSplitGuide (jsTrim cap)).take q.objectives.length).map
            String.mk) := by
  have h1 : (parseLLMResponse text q).objectives =
      (List.range q.objectives.length).map (fun idx =>
        String.mk (match (jsSplitGuide (jsTrim cap)).getD idx [] with
          | [] => jsTrim cap
          | p => p)) := by
    simp only [parseLLMResponse, hall]
    rw [if_pos (by simp)]
    simp only [fallbackFill, hcap, List.length_map, List.map_map]
    rfl
  refine ⟨h1, ?_⟩
  intro hle hne
  rw [h1]
  apply List.ext_getElem
  · simp only [List.length_map, List.length_range, List.length_take]
    omega
  · intro i hi1 hi2
    have hilen : i < (jsSplitGuide (jsTrim cap)).length := by
      simp only [List.length_map, List.length_range] at hi1
      omega
    simp only [List.getElem_map, List.getElem_range, List.getElem_take]
    rw [List.getD_eq_getElem _ _ hilen]
    have hne2 : (jsSplitGuide (jsTrim cap))[i] ≠ [] :=
      hne _ (List.getElem_mem _)
    cases hp : (jsSplitGuide (jsTrim cap))[i] with
    | nil => exact absurd hp hne2
    | cons a t => rfl

set_option maxRecDepth 8000 in
/-- C7 witness: three blank-line-separated chunks for three objectives
are assigned index-aligned. -/
theorem segmentation_fallback_witness :
    (parseLLMResponse textC7three questC7).objectives =
      ["Head east to the compound area and wait for dusk",
        "Pry open the vault and take everything inside",
        "Walk back to the contact and finish"] := by
  have h := (segmentation_fallback_spec textC7three questC7 (by decide)
      ("Head east to the compound area and wait for dusk\n\nPry open the vault and take everything inside\n\nWalk back to the contact and finish" : String).data
      (by decide)).2 (by decide) (by decide)
  rw [h]
  decide
